import Mathlib

/-!
Shallow embedding of the messaging application's core: the shared schema
(users, groups, group membership, messages), the in-memory storage class
`MemStorage`, and the HTTP/WebSocket route handlers that sit on top of it
(signup, group creation, message creation with WebSocket fan-out, user
search).  Maps are embedded as insertion-ordered association lists, JS
`Set`s as deduplicated insertion-ordered lists, JS `Array.prototype.sort`
as the stable `List.mergeSort`, and JS string truthiness explicitly.
Timestamps (`Date.getTime()`) are natural numbers; `randomUUID` and
`bcrypt.hash` results are passed in as explicit arguments.
-/

namespace Chat

/-- A row of the `users` table: id, unique username, bcrypt hash. -/
structure User where
  id : String
  username : String
  passwordHash : String
deriving DecidableEq, Repr

/-- A row of the `groups` table. -/
structure Group where
  id : String
  name : String
  createdBy : String
  createdAt : Nat
deriving DecidableEq, Repr

/-- A row of the `messages` table: exactly one of `recipientId` / `groupId`
is intended to be present (enforced only by input validation). -/
structure Message where
  id : String
  senderId : String
  recipientId : Option String
  groupId : Option String
  content : String
  createdAt : Nat
deriving DecidableEq, Repr

/-- `GroupWithMembers`: a group flattened together with its resolved member
users and their count. -/
structure GroupWithMembers where
  id : String
  name : String
  createdBy : String
  createdAt : Nat
  members : List User
  memberCount : Nat
deriving DecidableEq, Repr

/-- `MessageWithUsers`: a message enriched with denormalized sender, and
recipient or group. -/
structure MessageWithUsers where
  msg : Message
  sender : User
  recipient : Option User := none
  group : Option GroupWithMembers := none
deriving DecidableEq, Repr

inductive ConvType where
  | direct
  | group
deriving DecidableEq, Repr

/-- The derived `Conversation` view: one direct counterpart or one group,
with the most recent message (or none). -/
structure Conversation where
  type : ConvType
  otherUser : Option User := none
  group : Option GroupWithMembers := none
  lastMessage : Option Message
  unreadCount : Nat := 0
deriving DecidableEq, Repr

/-- Input accepted by `insertMessageSchema` (content plus the two optional
address fields). -/
structure InsertMessage where
  recipientId : Option String
  groupId : Option String
  content : String
deriving DecidableEq, Repr

/-- Input accepted by `insertGroupSchema`. -/
structure InsertGroup where
  name : String
  memberIds : List String
deriving DecidableEq, Repr

/-- The four maps of `MemStorage`, as insertion-ordered lists. -/
structure MemStorage where
  users : List User
  messages : List Message
  groups : List Group
  groupMembers : List (String × List String)
deriving DecidableEq, Repr

def MemStorage.empty : MemStorage := ⟨[], [], [], []⟩

/-- JS truthiness of a `string | null` value: `null` and `""` are falsy. -/
def jsTruthy : Option String → Bool
  | none => false
  | some s => !(s == "")

/-- Models the JS expression `x || null` for `x : string | null`. -/
def jsOrNull (o : Option String) : Option String :=
  if jsTruthy o then o else none

/-- JS `Map.set` keyed by `key`: replace in place if the key is present,
otherwise append (JS maps preserve insertion order). -/
def mapSet {α : Type} (key : α → String) (l : List α) (x : α) : List α :=
  if l.any (fun y => key y == key x) then
    l.map (fun y => if key y == key x then x else y)
  else l ++ [x]

/-- JS `Set.add`: append if absent (sets iterate in insertion order). -/
def setAdd (l : List String) (x : String) : List String :=
  if x ∈ l then l else l ++ [x]

/-- JS `String.prototype.toLowerCase`, on the character list. -/
def lowerChars (s : String) : List Char :=
  s.toList.map Char.toLower

/-- JS `String.prototype.includes`: substring containment. -/
def charsInclude (needle : List Char) : List Char → Bool
  | [] => needle.isEmpty
  | c :: rest => needle.isPrefixOf (c :: rest) || charsInclude needle rest

/-- JS `String.prototype.trim`, returning the trimmed character list. -/
def jsTrim (s : String) : List Char :=
  ((s.toList.dropWhile Char.isWhitespace).reverse.dropWhile Char.isWhitespace).reverse

/-- Ascending comparator used by `sort((a, b) => a.createdAt - b.createdAt)`. -/
def msgAsc (a b : Message) : Bool :=
  decide (a.createdAt ≤ b.createdAt)

/-- Descending comparator used by `sort((a, b) => b.createdAt - a.createdAt)`. -/
def msgDesc (a b : Message) : Bool :=
  decide (b.createdAt ≤ a.createdAt)

namespace MemStorage

/-- `MemStorage.getUser`. -/
def getUser (st : MemStorage) (id : String) : Option User :=
  st.users.find? (fun u => u.id == id)

/-- `MemStorage.getUserByUsername` (exact, case-sensitive match). -/
def getUserByUsername (st : MemStorage) (username : String) : Option User :=
  st.users.find? (fun u => u.username == username)

/-- `MemStorage.createUser`; the fresh UUID and the bcrypt hash are passed in. -/
def createUser (st : MemStorage) (id username passwordHash : String) :
    User × MemStorage :=
  let user : User := ⟨id, username, passwordHash⟩
  (user, { st with users := mapSet (fun u => u.id) st.users user })

/-- `MemStorage.createGroup`: stores the group and the member set
`{createdBy} ∪ memberIds` (a JS `Set`, deduplicated in insertion order). -/
def createGroup (st : MemStorage) (createdBy : String) (g : InsertGroup)
    (id : String) (now : Nat) : Group × MemStorage :=
  let group : Group := ⟨id, g.name, createdBy, now⟩
  let members := (createdBy :: g.memberIds).foldl setAdd []
  (group, { st with
    groups := mapSet (fun x => x.id) st.groups group,
    groupMembers := mapSet (fun e => e.1) st.groupMembers (id, members) })

/-- `MemStorage.getGroup`. -/
def getGroup (st : MemStorage) (id : String) : Option Group :=
  st.groups.find? (fun g => g.id == id)

/-- `MemStorage.getGroupMembers`: resolves member ids, silently skipping
ids with no user record. -/
def getGroupMembers (st : MemStorage) (groupId : String) : List User :=
  match st.groupMembers.find? (fun e => e.1 == groupId) with
  | none => []
  | some e => e.2.filterMap (fun uid => st.getUser uid)

/-- `MemStorage.getGroupWithMembers`. -/
def getGroupWithMembers (st : MemStorage) (id : String) :
    Option GroupWithMembers :=
  match st.getGroup id with
  | none => none
  | some g =>
    let members := st.getGroupMembers id
    some ⟨g.id, g.name, g.createdBy, g.createdAt, members, members.length⟩

/-- `MemStorage.getGroupsForUser`: scans the membership map in insertion
order, keeping groups that contain the user and still resolve. -/
def getGroupsForUser (st : MemStorage) (userId : String) :
    List GroupWithMembers :=
  st.groupMembers.filterMap (fun e =>
    if userId ∈ e.2 then st.getGroupWithMembers e.1 else none)

/-- `MemStorage.addGroupMember` (no-op when the group has no member set). -/
def addGroupMember (st : MemStorage) (groupId userId : String) : MemStorage :=
  if st.groupMembers.any (fun e => e.1 == groupId) then
    { st with groupMembers := st.groupMembers.map (fun e =>
        if e.1 == groupId then (e.1, setAdd e.2 userId) else e) }
  else st

/-- `MemStorage.removeGroupMember` (no-op when the group has no member set). -/
def removeGroupMember (st : MemStorage) (groupId userId : String) : MemStorage :=
  if st.groupMembers.any (fun e => e.1 == groupId) then
    { st with groupMembers := st.groupMembers.map (fun e =>
        if e.1 == groupId then (e.1, e.2.erase userId) else e) }
  else st

/-- `MemStorage.createMessage`: normalizes the two address fields with
`|| null` and stores the message; no existence or XOR validation here. -/
def createMessage (st : MemStorage) (senderId : String) (im : InsertMessage)
    (id : String) (now : Nat) : Message × MemStorage :=
  let m : Message :=
    ⟨id, senderId, jsOrNull im.recipientId, jsOrNull im.groupId, im.content, now⟩
  (m, { st with messages := mapSet (fun x => x.id) st.messages m })

/-- The loop body that attaches sender and group to a group message,
skipping it when either does not resolve. -/
def enrichGroup (st : MemStorage) (group : Option GroupWithMembers)
    (m : Message) : Option MessageWithUsers :=
  match st.getUser m.senderId, group with
  | some sender, some g => some ⟨m, sender, none, some g⟩
  | _, _ => none

/-- `MemStorage.getGroupMessages`: filter by group, sort ascending by
creation time, then attach sender and group, skipping entries whose
sender or group does not resolve. -/
def getGroupMessages (st : MemStorage) (groupId : String) :
    List MessageWithUsers :=
  let groupMessages :=
    (st.messages.filter (fun m => m.groupId == some groupId)).mergeSort msgAsc
  let group := st.getGroupWithMembers groupId
  groupMessages.filterMap (st.enrichGroup group)

/-- The filter predicate of `getMessagesBetweenUsers`. -/
def betweenPred (u1 u2 : String) (m : Message) : Bool :=
  (m.senderId == u1 && m.recipientId == some u2) ||
    (m.senderId == u2 && m.recipientId == some u1)

/-- The loop body that attaches sender and recipient to a direct message,
skipping it when either does not resolve (the recipient lookup receives
the possibly-null recipient id). -/
def enrichDirect (st : MemStorage) (m : Message) : Option MessageWithUsers :=
  match st.getUser m.senderId, Option.bind m.recipientId st.getUser with
  | some sender, some recipient => some ⟨m, sender, some recipient, none⟩
  | _, _ => none

/-- `MemStorage.getMessagesBetweenUsers`: filter the log for direct
messages between the two users (either direction), sort ascending by
creation time, then attach sender and recipient, skipping entries whose
sender or recipient does not resolve. -/
def getMessagesBetweenUsers (st : MemStorage) (u1 u2 : String) :
    List MessageWithUsers :=
  let sorted := (st.messages.filter (betweenPred u1 u2)).mergeSort msgAsc
  sorted.filterMap st.enrichDirect

/-- One step of the loop in `getConversationsForUser` that collects the
set of direct counterparts of `userId`. -/
def counterpartStep (userId : String) (acc : List String) (m : Message) :
    List String :=
  if jsTruthy m.groupId then acc
  else if m.senderId == userId && jsTruthy m.recipientId then
    setAdd acc (m.recipientId.getD "")
  else if m.recipientId == some userId then
    setAdd acc m.senderId
  else acc

/-- The `otherUserIds` set of `getConversationsForUser`: distinct direct
counterparts of `userId`, in first-appearance order. -/
def directCounterparts (st : MemStorage) (userId : String) : List String :=
  st.messages.foldl (counterpartStep userId) []

/-- Builds one direct conversation: the pair's direct messages sorted
descending by creation time, the head becoming `lastMessage`. -/
def directConversation (st : MemStorage) (userId otherUserId : String)
    (otherUser : User) : Conversation :=
  let msgs := st.messages.filter (fun m =>
    !jsTruthy m.groupId &&
      ((m.senderId == userId && m.recipientId == some otherUserId) ||
       (m.senderId == otherUserId && m.recipientId == some userId)))
  { type := ConvType.direct, otherUser := some otherUser,
    lastMessage := (msgs.mergeSort msgDesc).head? }

/-- Builds one group conversation for `getConversationsForUser`. -/
def groupConversation (st : MemStorage) (gwm : GroupWithMembers) :
    Conversation :=
  let gmsgs := st.messages.filter (fun m => m.groupId == some gwm.id)
  { type := ConvType.group, group := some gwm,
    lastMessage := (gmsgs.mergeSort msgDesc).head? }

/-- Sort key of the final conversation sort:
`lastMessage?.createdAt.getTime() || 0`. -/
def convKey (c : Conversation) : Nat :=
  match c.lastMessage with
  | none => 0
  | some m => m.createdAt

/-- Descending comparator on `convKey`. -/
def convDesc (a b : Conversation) : Bool :=
  decide (convKey b ≤ convKey a)

/-- `MemStorage.getConversationsForUser`: one conversation per resolved
direct counterpart, one per membership entry that resolves to a group,
all sorted descending by `convKey`. -/
def getConversationsForUser (st : MemStorage) (userId : String) :
    List Conversation :=
  let directConvs := (st.directCounterparts userId).filterMap (fun v =>
    (st.getUser v).map (fun u => st.directConversation userId v u))
  let groupConvs := (st.getGroupsForUser userId).map st.groupConversation
  (directConvs ++ groupConvs).mergeSort convDesc

/-- The match predicate of `searchUsers`: case-insensitive containment. -/
def searchMatch (query username : String) : Bool :=
  charsInclude (lowerChars query) (lowerChars username)

/-- `MemStorage.searchUsers`: case-insensitive substring filter. -/
def searchUsers (st : MemStorage) (query : String) : List User :=
  st.users.filter (fun u => searchMatch query u.username)

/-- Modelled from the spec: the user-search route calls
`storage.getAllUsers`, which is absent from the storage source file; per
the spec, an empty or blank query returns all users. -/
def getAllUsers (st : MemStorage) : List User :=
  st.users

end MemStorage

/-- Typed result of a route handler: `ok` payload or `err status message`. -/
inductive ApiResult (α : Type) where
  | ok : α → ApiResult α
  | err : Nat → String → ApiResult α

/-- JSON values, for the wire payloads the routes build. -/
inductive Json where
  | str : String → Json
  | num : Nat → Json
  | null : Json
  | arr : List Json → Json
  | obj : List (String × Json) → Json

/-- Serialize a `string | null` field. -/
def jsonOfOptStr : Option String → Json
  | none => Json.null
  | some s => Json.str s

/-- The raw JSON fields of a `User` record, credential hash included. -/
def User.jsonFields (u : User) : List (String × Json) :=
  [("id", Json.str u.id), ("username", Json.str u.username),
   ("passwordHash", Json.str u.passwordHash)]

/-- `sanitizeUser` from the routes module: destructures `passwordHash`
away and keeps every other field. -/
def sanitizeUser (u : User) : Json :=
  Json.obj (u.jsonFields.filter (fun f => !(f.1 == "passwordHash")))

/-- The JSON fields contributed by spreading a `Message`. -/
def Message.jsonFields (m : Message) : List (String × Json) :=
  [("id", Json.str m.id), ("senderId", Json.str m.senderId),
   ("recipientId", jsonOfOptStr m.recipientId),
   ("groupId", jsonOfOptStr m.groupId),
   ("content", Json.str m.content), ("createdAt", Json.num m.createdAt)]

/-- A `GroupWithMembers` serialized with every member sanitized, as the
routes do before responding or broadcasting. -/
def sanitizedGroupJson (g : GroupWithMembers) : Json :=
  Json.obj [("id", Json.str g.id), ("name", Json.str g.name),
    ("createdBy", Json.str g.createdBy), ("createdAt", Json.num g.createdAt),
    ("members", Json.arr (g.members.map sanitizeUser)),
    ("memberCount", Json.num g.memberCount)]

/-- `WebSocket.OPEN` readyState constant of the `ws` library. -/
def wsOPEN : Nat := 1

/-- A WebSocket client as the broadcast loop sees it: its readyState and
the payloads written to it so far. -/
structure Connection where
  readyState : Nat
  inbox : List Json

/-- The broadcast loop of the message route: send the payload to every
client whose readyState is `OPEN`, and only to those. -/
def broadcast (clients : List Connection) (payload : Json) : List Connection :=
  clients.map (fun c =>
    if c.readyState == wsOPEN then { c with inbox := c.inbox ++ [payload] } else c)

/-- `insertMessageSchema`'s refinement:
`(recipientId && !groupId) || (!recipientId && groupId)` (JS truthiness). -/
def validateInsertMessage (im : InsertMessage) : Bool :=
  (jsTruthy im.recipientId && !jsTruthy im.groupId) ||
    (!jsTruthy im.recipientId && jsTruthy im.groupId)

/-- `insertGroupSchema`: `name` is any string (no blank check);
`memberIds` must be nonempty. -/
def validateInsertGroup (g : InsertGroup) : Bool :=
  decide (1 ≤ g.memberIds.length)

/-- `insertUserSchema`: username is any string, password at least 6 chars. -/
def validateInsertUser (password : String) : Bool :=
  decide (6 ≤ password.length)

/-- The `POST /api/messages` handler: validate the addressing XOR, store
the message, enrich it with sender and recipient-or-group, broadcast to
all open WebSocket clients, and respond. -/
def postMessages (st : MemStorage) (sessionUserId : String)
    (body : InsertMessage) (freshId : String) (now : Nat)
    (clients : List Connection) :
    ApiResult Json × MemStorage × List Connection :=
  if !validateInsertMessage body then
    (ApiResult.err 400 "Message must have either recipientId or groupId, not both",
     st, clients)
  else
    let r := st.createMessage sessionUserId body freshId now
    let m := r.1
    let st1 := r.2
    match st1.getUser m.senderId with
    | none => (ApiResult.err 500 "Failed to get sender data", st1, clients)
    | some sender =>
      match jsOrNull m.recipientId with
      | some rid =>
        match st1.getUser rid with
        | none => (ApiResult.err 500 "Failed to get recipient data", st1, clients)
        | some recipient =>
          let payload := Json.obj (m.jsonFields ++
            [("sender", sanitizeUser sender), ("recipient", sanitizeUser recipient)])
          (ApiResult.ok payload, st1, broadcast clients payload)
      | none =>
        match jsOrNull m.groupId with
        | some gid =>
          match st1.getGroupWithMembers gid with
          | none => (ApiResult.err 500 "Failed to get group data", st1, clients)
          | some g =>
            let payload := Json.obj (m.jsonFields ++
              [("sender", sanitizeUser sender), ("group", sanitizedGroupJson g)])
            (ApiResult.ok payload, st1, broadcast clients payload)
        | none =>
          let payload := Json.obj (m.jsonFields ++ [("sender", sanitizeUser sender)])
          (ApiResult.ok payload, st1, broadcast clients payload)

/-- The `POST /api/groups` handler. -/
def postGroups (st : MemStorage) (sessionUserId : String) (body : InsertGroup)
    (freshId : String) (now : Nat) : ApiResult Json × MemStorage :=
  if !validateInsertGroup body then
    (ApiResult.err 400 "At least one member is required", st)
  else
    let r := st.createGroup sessionUserId body freshId now
    let st1 := r.2
    match st1.getGroupWithMembers r.1.id with
    | none => (ApiResult.err 500 "Failed to get group data", st1)
    | some g => (ApiResult.ok (sanitizedGroupJson g), st1)

/-- The `POST /api/auth/signup` handler: schema validation, duplicate
username check, then `createUser`. -/
def signup (st : MemStorage) (username password : String)
    (freshId hash : String) : ApiResult Json × MemStorage :=
  if !validateInsertUser password then
    (ApiResult.err 400 "Password must be at least 6 characters", st)
  else if (st.getUserByUsername username).isSome then
    (ApiResult.err 400 "Username already taken", st)
  else
    let r := st.createUser freshId username hash
    (ApiResult.ok (sanitizeUser r.1), r.2)

/-- One signup request: the client-chosen fields plus the fresh UUID and
hash produced while handling it. -/
structure SignupOp where
  username : String
  password : String
  freshId : String
  hash : String

/-- The state transition of one signup request. -/
def signupStep (st : MemStorage) (op : SignupOp) : MemStorage :=
  (signup st op.username op.password op.freshId op.hash).2

/-- The `GET /api/users/search` handler: blank or missing query returns
all users, otherwise the substring search; all results sanitized. -/
def searchUsersRoute (st : MemStorage) (q : Option String) :
    ApiResult (List Json) :=
  if !jsTruthy q || (jsTrim (q.getD "")).isEmpty then
    ApiResult.ok (st.getAllUsers.map sanitizeUser)
  else
    ApiResult.ok ((st.searchUsers (q.getD "")).map sanitizeUser)

end Chat

namespace Chat

lemma mapSet_append {α : Type} (key : α → String) (l : List α) (x : α)
    (h : ∀ y ∈ l, key y ≠ key x) : mapSet key l x = l ++ [x] := by
  have hany : ¬ (l.any (fun y => key y == key x) = true) := by
    simp only [List.any_eq_true, beq_iff_eq, not_exists]
    rintro y ⟨hy, hk⟩
    exact h y hy hk
  simp [mapSet, hany]

lemma jsOrNull_idem (o : Option String) : jsOrNull (jsOrNull o) = jsOrNull o := by
  cases o with
  | none => rfl
  | some s =>
    by_cases h : s = ""
    · subst h; rfl
    · simp [jsOrNull, jsTruthy, h]

lemma getUser_msgs (st : MemStorage) (M : List Message) (id : String) :
    MemStorage.getUser { st with messages := M } id = st.getUser id := rfl

lemma getGroupWithMembers_msgs (st : MemStorage) (M : List Message) (gid : String) :
    MemStorage.getGroupWithMembers { st with messages := M } gid =
      st.getGroupWithMembers gid := rfl

def c1State : MemStorage :=
  { users := [⟨"u-alice", "alice", "hash-a"⟩], messages := [],
    groups := [], groupMembers := [] }

/-- C1 counterexample. -/
theorem c1_counterexample :
    (postMessages c1State "u-alice" ⟨some "u-bob", none, "hi"⟩ "m1" 5 []).1 =
      ApiResult.err 500 "Failed to get recipient data" ∧
    (postMessages c1State "u-alice" ⟨some "u-bob", none, "hi"⟩ "m1" 5 []).2.1.messages =
      [⟨"m1", "u-alice", some "u-bob", none, "hi", 5⟩] :=
  ⟨rfl, by decide⟩

/-- C1 amended. -/
theorem c1_amended (st : MemStorage) (sessionUserId : String)
    (body : InsertMessage) (freshId : String) (now : Nat)
    (clients : List Connection)
    (hval : validateInsertMessage body = true)
    (hsender : (st.getUser sessionUserId).isSome = true)
    (hfresh : ∀ m ∈ st.messages, m.id ≠ freshId)
    (hmiss : (∃ rid, jsOrNull body.recipientId = some rid ∧ st.getUser rid = none) ∨
             (jsOrNull body.recipientId = none ∧
              ∃ gid, jsOrNull body.groupId = some gid ∧
                st.getGroupWithMembers gid = none)) :
    (∃ emsg, (postMessages st sessionUserId body freshId now clients).1 =
        ApiResult.err 500 emsg) ∧
    (postMessages st sessionUserId body freshId now clients).2.1.messages =
      st.messages ++ [⟨freshId, sessionUserId, jsOrNull body.recipientId,
                       jsOrNull body.groupId, body.content, now⟩] ∧
    (postMessages st sessionUserId body freshId now clients).2.2 = clients := by
  obtain ⟨sender, hsu⟩ := Option.isSome_iff_exists.mp hsender
  have hmsgs : mapSet (fun x => x.id) st.messages
      ⟨freshId, sessionUserId, jsOrNull body.recipientId, jsOrNull body.groupId,
        body.content, now⟩ =
      st.messages ++ [⟨freshId, sessionUserId, jsOrNull body.recipientId,
        jsOrNull body.groupId, body.content, now⟩] :=
    mapSet_append _ _ _ (fun y hy => hfresh y hy)
  rcases hmiss with ⟨rid, hr, hnone⟩ | ⟨hrnone, gid, hg, hgnone⟩
  · have hr2 : jsOrNull (jsOrNull body.recipientId) = some rid := by
      rw [jsOrNull_idem, hr]
    refine ⟨⟨"Failed to get recipient data", ?_⟩, ?_, ?_⟩ <;>
      simp only [postMessages, hval, Bool.not_true, if_false,
        MemStorage.createMessage, hmsgs, getUser_msgs, getGroupWithMembers_msgs,
        hsu, hr2, hnone] <;> simp
  · have hr2 : jsOrNull (jsOrNull body.recipientId) = none := by
      rw [jsOrNull_idem, hrnone]
    have hg2 : jsOrNull (jsOrNull body.groupId) = some gid := by
      rw [jsOrNull_idem, hg]
    refine ⟨⟨"Failed to get group data", ?_⟩, ?_, ?_⟩ <;>
      simp only [postMessages, hval, Bool.not_true, if_false,
        MemStorage.createMessage, hmsgs, getUser_msgs, getGroupWithMembers_msgs,
        hsu, hr2, hg2, hgnone] <;> simp

end Chat

namespace Chat

/-- C1 amended witness. -/
theorem c1_amended_witness :
    (validateInsertMessage ⟨some "u-bob", none, "hi"⟩ = true ∧
     (c1State.getUser "u-alice").isSome = true ∧
     (∀ m ∈ c1State.messages, m.id ≠ "m1") ∧
     ((∃ rid, jsOrNull (some "u-bob") = some rid ∧ c1State.getUser rid = none) ∨
      (jsOrNull (some "u-bob") = none ∧
       ∃ gid, jsOrNull (none : Option String) = some gid ∧
         c1State.getGroupWithMembers gid = none))) ∧
    ((∃ emsg, (postMessages c1State "u-alice" ⟨some "u-bob", none, "hi"⟩ "m1" 5 []).1 =
        ApiResult.err 500 emsg) ∧
     (postMessages c1State "u-alice" ⟨some "u-bob", none, "hi"⟩ "m1" 5 []).2.1.messages =
       c1State.messages ++ [⟨"m1", "u-alice", jsOrNull (some "u-bob"),
         jsOrNull (none : Option String), "hi", 5⟩] ∧
     (postMessages c1State "u-alice" ⟨some "u-bob", none, "hi"⟩ "m1" 5 []).2.2 = []) :=
  ⟨⟨by decide, by decide, by decide, Or.inl ⟨"u-bob", by decide, by decide⟩⟩,
   c1_amended c1State "u-alice" ⟨some "u-bob", none, "hi"⟩ "m1" 5 []
     (by decide) (by decide) (by decide) (Or.inl ⟨"u-bob", by decide, by decide⟩)⟩

def c2State : MemStorage :=
  { users := [⟨"u-carol", "carol", "hash-c"⟩], messages := [],
    groups := [], groupMembers := [] }

/-- C2 counterexample: creating a group with the blank name is accepted:
the route answers ok and both a group row and a membership entry exist
afterwards, contradicting the claimed EmptyName failure. -/
theorem c2_counterexample :
    (∃ j, (postGroups c2State "u-carol" ⟨"", ["u-carol"]⟩ "g1" 7).1 =
        ApiResult.ok j) ∧
    (postGroups c2State "u-carol" ⟨"", ["u-carol"]⟩ "g1" 7).2.groups =
      [⟨"g1", "", "u-carol", 7⟩] ∧
    (postGroups c2State "u-carol" ⟨"", ["u-carol"]⟩ "g1" 7).2.groupMembers =
      [("g1", ["u-carol"])] :=
  ⟨⟨_, rfl⟩, by decide, by decide⟩

/-- C2 amended: `createGroup` accepts a blank (empty or whitespace-only)
name; the group is created with that name together with its membership
entry.  The only input validation on group creation is that `memberIds`
is nonempty. -/
theorem c2_amended (st : MemStorage) (sessionUserId name : String)
    (memberIds : List String) (freshId : String) (now : Nat)
    (hblank : jsTrim name = [])
    (hmem : memberIds ≠ [])
    (hfreshG : ∀ g ∈ st.groups, g.id ≠ freshId)
    (hfreshM : ∀ e ∈ st.groupMembers, e.1 ≠ freshId) :
    (∃ j, (postGroups st sessionUserId ⟨name, memberIds⟩ freshId now).1 =
        ApiResult.ok j) ∧
    (postGroups st sessionUserId ⟨name, memberIds⟩ freshId now).2.groups =
      st.groups ++ [⟨freshId, name, sessionUserId, now⟩] ∧
    (postGroups st sessionUserId ⟨name, memberIds⟩ freshId now).2.groupMembers =
      st.groupMembers ++
        [(freshId, (sessionUserId :: memberIds).foldl setAdd [])] := by
  have hval : validateInsertGroup ⟨name, memberIds⟩ = true := by
    simp only [validateInsertGroup, decide_eq_true_eq]
    exact List.length_pos.mpr hmem
  have hg1 : mapSet (fun x => x.id) st.groups ⟨freshId, name, sessionUserId, now⟩ =
      st.groups ++ [⟨freshId, name, sessionUserId, now⟩] :=
    mapSet_append _ _ _ (fun y hy => hfreshG y hy)
  have hg2 : mapSet (fun e => e.1) st.groupMembers
      (freshId, (sessionUserId :: memberIds).foldl setAdd []) =
      st.groupMembers ++ [(freshId, (sessionUserId :: memberIds).foldl setAdd [])] :=
    mapSet_append _ _ _ (fun y hy => hfreshM y hy)
  have hfind1 : (st.groups ++ [(⟨freshId, name, sessionUserId, now⟩ : Group)]).find?
      (fun g => g.id == freshId) = some ⟨freshId, name, sessionUserId, now⟩ := by
    rw [List.find?_append]
    have hnone : st.groups.find? (fun g => g.id == freshId) = none :=
      List.find?_eq_none.mpr (by intro g hg; simp [hfreshG g hg])
    simp [hnone]
  have hfind2 : (st.groupMembers ++
      [(freshId, (sessionUserId :: memberIds).foldl setAdd [])]).find?
      (fun e => e.1 == freshId) =
      some (freshId, (sessionUserId :: memberIds).foldl setAdd []) := by
    rw [List.find?_append]
    have hnone : st.groupMembers.find? (fun e => e.1 == freshId) = none :=
      List.find?_eq_none.mpr (by intro e he; simp [hfreshM e he])
    simp [hnone]
  have hpost : postGroups st sessionUserId ⟨name, memberIds⟩ freshId now =
      (ApiResult.ok (sanitizedGroupJson
        ⟨freshId, name, sessionUserId, now,
         ((sessionUserId :: memberIds).foldl setAdd []).filterMap
           (fun uid => st.getUser uid),
         (((sessionUserId :: memberIds).foldl setAdd []).filterMap
           (fun uid => st.getUser uid)).length⟩),
       { st with groups := st.groups ++ [⟨freshId, name, sessionUserId, now⟩],
                 groupMembers := st.groupMembers ++
                   [(freshId, (sessionUserId :: memberIds).foldl setAdd [])] }) := by
    simp only [postGroups, hval, Bool.not_true, MemStorage.createGroup, hg1, hg2,
      MemStorage.getGroupWithMembers, MemStorage.getGroup,
      MemStorage.getGroupMembers, hfind1, hfind2, MemStorage.getUser]
    simp
  exact ⟨⟨_, by rw [hpost]⟩, by rw [hpost], by rw [hpost]⟩

/-- C2 amended witness. -/
theorem c2_amended_witness :
    (jsTrim "" = [] ∧ (["u-carol"] : List String) ≠ [] ∧
     (∀ g ∈ c2State.groups, g.id ≠ "g1") ∧
     (∀ e ∈ c2State.groupMembers, e.1 ≠ "g1")) ∧
    ((∃ j, (postGroups c2State "u-carol" ⟨"", ["u-carol"]⟩ "g1" 7).1 =
        ApiResult.ok j) ∧
     (postGroups c2State "u-carol" ⟨"", ["u-carol"]⟩ "g1" 7).2.groups =
       c2State.groups ++ [⟨"g1", "", "u-carol", 7⟩] ∧
     (postGroups c2State "u-carol" ⟨"", ["u-carol"]⟩ "g1" 7).2.groupMembers =
       c2State.groupMembers ++
         [("g1", ("u-carol" :: ["u-carol"]).foldl setAdd [])]) :=
  ⟨⟨by decide, by decide, by decide, by decide⟩,
   c2_amended c2State "u-carol" "" ["u-carol"] "g1" 7
     (by decide) (by decide) (by decide) (by decide)⟩

/-- C6: an input whose recipientId and groupId are both set (non-null,
nonempty) or both unset fails the schema refinement; the message route
rejects it with the validation error and neither the storage state nor
the connections change, so no such message is ever stored. -/
theorem c6_xor_validation (recipientId groupId : Option String)
    (content : String) (st : MemStorage) (sessionUserId freshId : String)
    (now : Nat) (clients : List Connection)
    (h : (jsTruthy recipientId = true ∧ jsTruthy groupId = true) ∨
         (jsTruthy recipientId = false ∧ jsTruthy groupId = false)) :
    validateInsertMessage ⟨recipientId, groupId, content⟩ = false ∧
    postMessages st sessionUserId ⟨recipientId, groupId, content⟩ freshId now clients =
      (ApiResult.err 400 "Message must have either recipientId or groupId, not both",
       st, clients) := by
  have hv : validateInsertMessage ⟨recipientId, groupId, content⟩ = false := by
    rcases h with ⟨h1, h2⟩ | ⟨h1, h2⟩ <;> simp [validateInsertMessage, h1, h2]
  exact ⟨hv, by simp [postMessages, hv]⟩

/-- C6 witness (both fields set). -/
theorem c6_xor_validation_witness :
    ((jsTruthy (some "r1") = true ∧ jsTruthy (some "g1") = true) ∨
     (jsTruthy (some "r1") = false ∧ jsTruthy (some "g1") = false)) ∧
    (validateInsertMessage ⟨some "r1", some "g1", "hey"⟩ = false ∧
     postMessages MemStorage.empty "u0" ⟨some "r1", some "g1", "hey"⟩ "m9" 3 [] =
       (ApiResult.err 400 "Message must have either recipientId or groupId, not both",
        MemStorage.empty, [])) :=
  ⟨Or.inl ⟨by decide, by decide⟩,
   c6_xor_validation (some "r1") (some "g1") "hey" MemStorage.empty "u0" "m9" 3 []
     (Or.inl ⟨by decide, by decide⟩)⟩

end Chat

namespace Chat

/-- Uniqueness invariant of the user registry: ids and usernames are
(case-sensitively) pairwise distinct. -/
def UsersInv (st : MemStorage) : Prop :=
  (st.users.map (fun u => u.id)).Nodup ∧
  (st.users.map (fun u => u.username)).Nodup

lemma replace_usernames_nodup (l : List User) (x : User)
    (hids : (l.map (fun u => u.id)).Nodup)
    (hname : ∀ u ∈ l, u.username ≠ x.username)
    (hnames : (l.map (fun u => u.username)).Nodup) :
    ((l.map (fun y => if y.id == x.id then x else y)).map
      (fun u => u.username)).Nodup := by
  induction l with
  | nil => simp
  | cons u t ih =>
    simp only [List.map_cons, List.nodup_cons, List.mem_map] at hids hnames
    obtain ⟨hidmem, hidt⟩ := hids
    obtain ⟨hnmem, hnt⟩ := hnames
    by_cases hu : u.id = x.id
    · have htail : t.map (fun y => if y.id == x.id then x else y) = t := by
        have hcong : ∀ y ∈ t, (if y.id == x.id then x else y) = id y := by
          intro y hy
          have hne : y.id ≠ x.id := by
            intro hxy
            exact hidmem ⟨y, hy, by rw [hxy, hu]⟩
          simp [hne]
        exact (List.map_congr_left hcong).trans (List.map_id t)
      rw [List.map_cons, if_pos (by simp [hu]), htail, List.map_cons,
        List.nodup_cons]
      refine ⟨?_, hnt⟩
      intro hmem
      obtain ⟨y, hy, hyx⟩ := List.mem_map.mp hmem
      exact hname y (List.mem_cons_of_mem u hy) hyx
    · rw [List.map_cons, if_neg (by simp [hu]), List.map_cons, List.nodup_cons]
      refine ⟨?_, ih hidt (fun y hy => hname y (List.mem_cons_of_mem u hy)) hnt⟩
      intro hmem
      obtain ⟨y, hy, hyu⟩ := List.mem_map.mp hmem
      obtain ⟨z, hz, hzy⟩ := List.mem_map.mp hy
      by_cases hzx : z.id = x.id
      · rw [if_pos (by simp [hzx])] at hzy
        subst hzy
        exact hname u (List.mem_cons_self u t) hyu.symm
      · rw [if_neg (by simp [hzx])] at hzy
        subst hzy
        exact hnmem ⟨z, hz, hyu⟩

lemma mapSet_users_nodup (l : List User) (x : User)
    (hids : (l.map (fun u => u.id)).Nodup)
    (hname : ∀ u ∈ l, u.username ≠ x.username)
    (hnames : (l.map (fun u => u.username)).Nodup) :
    ((mapSet (fun u => u.id) l x).map (fun u => u.id)).Nodup ∧
    ((mapSet (fun u => u.id) l x).map (fun u => u.username)).Nodup := by
  by_cases hany : (l.any (fun y => y.id == x.id)) = true
  · have hms : mapSet (fun u => u.id) l x =
        l.map (fun y => if y.id == x.id then x else y) := by
      simp [mapSet, hany]
    constructor
    · rw [hms, List.map_map]
      have hsame : ((fun u => u.id) ∘ fun y => if y.id == x.id then x else y) =
          fun y => y.id := by
        funext y
        by_cases hyx : y.id = x.id <;> simp [hyx]
      rw [hsame]
      exact hids
    · rw [hms]
      exact replace_usernames_nodup l x hids hname hnames
  · have hxid : ∀ y ∈ l, y.id ≠ x.id := by
      simp only [List.any_eq_true, beq_iff_eq, not_exists] at hany
      rintro y hy hxy
      exact hany y ⟨hy, hxy⟩
    have hms : mapSet (fun u => u.id) l x = l ++ [x] :=
      mapSet_append _ _ _ (fun y hy => hxid y hy)
    constructor
    · rw [hms, List.map_append, List.map_cons, List.map_nil, List.nodup_append]
      refine ⟨hids, List.nodup_singleton _, ?_⟩
      intro a ha hb
      simp only [List.mem_singleton] at hb
      obtain ⟨y, hy, hya⟩ := List.mem_map.mp ha
      exact hxid y hy (by rw [hya, hb])
    · rw [hms, List.map_append, List.map_cons, List.map_nil, List.nodup_append]
      refine ⟨hnames, List.nodup_singleton _, ?_⟩
      intro a ha hb
      simp only [List.mem_singleton] at hb
      obtain ⟨y, hy, hya⟩ := List.mem_map.mp ha
      exact hname y hy (by rw [hya, hb])

lemma signupStep_inv (st : MemStorage) (op : SignupOp) (h : UsersInv st) :
    UsersInv (signupStep st op) := by
  by_cases hv : validateInsertUser op.password = true
  · by_cases hd : (st.getUserByUsername op.username).isSome = true
    · simpa [signupStep, signup, hv, hd] using h
    · have hfind : st.users.find? (fun u => u.username == op.username) = none := by
        rcases hfn : st.users.find? (fun u => u.username == op.username) with _ | u
        · exact hfn
        · exact absurd (by simp [MemStorage.getUserByUsername, hfn]) hd
      have hname : ∀ u ∈ st.users, u.username ≠ op.username := by
        intro u hu
        have := List.find?_eq_none.mp hfind u hu
        simpa using this
      have hres := mapSet_users_nodup st.users
        ⟨op.freshId, op.username, op.hash⟩ h.1 (fun u hu => hname u hu) h.2
      constructor
      · simpa [signupStep, signup, hv, hd, MemStorage.createUser] using hres.1
      · simpa [signupStep, signup, hv, hd, MemStorage.createUser] using hres.2
  · simpa [signupStep, signup, hv] using h

lemma foldl_signup_inv (ops : List SignupOp) (st : MemStorage)
    (h : UsersInv st) : UsersInv (ops.foldl signupStep st) := by
  induction ops generalizing st with
  | nil => exact h
  | cons op t ih => exact ih _ (signupStep_inv st op h)

/-- C7: signing up with a username that is already taken fails with the
duplicate-username error and leaves the registry unchanged; moreover
case-sensitive username uniqueness holds after every sequence of signup
operations from the empty registry. -/
theorem c7_duplicate_username (st : MemStorage)
    (username password freshId hash : String)
    (hpwd : validateInsertUser password = true)
    (htaken : (st.getUserByUsername username).isSome = true) :
    signup st username password freshId hash =
      (ApiResult.err 400 "Username already taken", st) ∧
    ∀ ops : List SignupOp,
      ((ops.foldl signupStep MemStorage.empty).users.map
        (fun u => u.username)).Nodup := by
  refine ⟨by simp [signup, hpwd, htaken], fun ops => ?_⟩
  exact (foldl_signup_inv ops MemStorage.empty
    ⟨by simp [MemStorage.empty], by simp [MemStorage.empty]⟩).2

def c7State : MemStorage :=
  { users := [⟨"u-dave", "dave", "hash-d"⟩], messages := [],
    groups := [], groupMembers := [] }

/-- C7 witness. -/
theorem c7_duplicate_username_witness :
    (validateInsertUser "secret99" = true ∧
     (c7State.getUserByUsername "dave").isSome = true) ∧
    (signup c7State "dave" "secret99" "u-new" "hash-n" =
      (ApiResult.err 400 "Username already taken", c7State) ∧
     ∀ ops : List SignupOp,
       ((ops.foldl signupStep MemStorage.empty).users.map
         (fun u => u.username)).Nodup) :=
  ⟨⟨by decide, by decide⟩,
   c7_duplicate_username c7State "dave" "secret99" "u-new" "hash-n"
     (by decide) (by decide)⟩

end Chat

namespace Chat

lemma charsInclude_eq_infix (needle hay : List Char) :
    charsInclude needle hay = true ↔ needle <:+: hay := by
  induction hay with
  | nil =>
    simp [charsInclude, List.isEmpty_iff]
  | cons c rest ih =>
    rw [charsInclude, Bool.or_eq_true, ih, List.infix_cons_iff,
      List.isPrefixOf_iff_prefix]

def c8ExampleState : MemStorage :=
  { users := [⟨"u1", "Alice", "h1"⟩, ⟨"u2", "alias", "h2"⟩,
              ⟨"u3", "MALI", "h3"⟩, ⟨"u4", "bob", "h4"⟩],
    messages := [], groups := [], groupMembers := [] }

/-- C8: `searchUsers` returns exactly the users whose lowercased username
has the lowercased query as a substring; the search route answers a
missing or blank query with all users (sanitized); and on the example
registry the query "ali" matches Alice, alias and MALI but not bob. -/
theorem c8_search_users (st : MemStorage) (q : String) (u : User) :
    (u ∈ st.searchUsers q ↔
      u ∈ st.users ∧ lowerChars q <:+: lowerChars u.username) ∧
    searchUsersRoute st none = ApiResult.ok (st.users.map sanitizeUser) ∧
    (∀ qb : String, jsTrim qb = [] →
      searchUsersRoute st (some qb) = ApiResult.ok (st.users.map sanitizeUser)) ∧
    (c8ExampleState.searchUsers "ali").map (fun v => v.username) =
      ["Alice", "alias", "MALI"] := by
  refine ⟨?_, rfl, ?_, by decide⟩
  · rw [MemStorage.searchUsers, List.mem_filter, MemStorage.searchMatch,
      charsInclude_eq_infix]
  · intro qb hqb
    simp [searchUsersRoute, hqb, MemStorage.getAllUsers]

/-- C8 witness. -/
theorem c8_search_users_witness :
    ((⟨"u1", "Alice", "h1"⟩ : User) ∈ c8ExampleState.searchUsers "ali" ↔
      (⟨"u1", "Alice", "h1"⟩ : User) ∈ c8ExampleState.users ∧
        lowerChars "ali" <:+: lowerChars "Alice") ∧
    searchUsersRoute c8ExampleState none =
      ApiResult.ok (c8ExampleState.users.map sanitizeUser) ∧
    searchUsersRoute c8ExampleState (some " ") =
      ApiResult.ok (c8ExampleState.users.map sanitizeUser) ∧
    (c8ExampleState.searchUsers "ali").map (fun v => v.username) =
      ["Alice", "alias", "MALI"] := by
  have h := c8_search_users c8ExampleState "ali" ⟨"u1", "Alice", "h1"⟩
  exact ⟨h.1, h.2.1, h.2.2.1 " " (by decide), h.2.2.2⟩

end Chat

namespace Chat

lemma enrichDirect_eq_some {st : MemStorage} {m : Message}
    {e : MessageWithUsers} (h : st.enrichDirect m = some e) :
    e.msg = m ∧ (st.getUser m.senderId).isSome = true ∧
      (Option.bind m.recipientId st.getUser).isSome = true := by
  unfold MemStorage.enrichDirect at h
  rcases hs : st.getUser m.senderId with _ | sender <;>
    rcases hr : Option.bind m.recipientId st.getUser with _ | recipient <;>
    rw [hs, hr] at h <;> cases h
  exact ⟨rfl, rfl, rfl⟩

lemma enrichDirect_some {st : MemStorage} {m : Message}
    (hs : (st.getUser m.senderId).isSome = true)
    (hr : (Option.bind m.recipientId st.getUser).isSome = true) :
    ∃ e, st.enrichDirect m = some e ∧ e.msg = m := by
  obtain ⟨sender, hsu⟩ := Option.isSome_iff_exists.mp hs
  obtain ⟨recipient, hru⟩ := Option.isSome_iff_exists.mp hr
  exact ⟨⟨m, sender, some recipient, none⟩,
    by unfold MemStorage.enrichDirect; rw [hsu, hru], rfl⟩

lemma enrichGroup_eq_some {st : MemStorage} {group : Option GroupWithMembers}
    {m : Message} {e : MessageWithUsers}
    (h : st.enrichGroup group m = some e) :
    e.msg = m ∧ (st.getUser m.senderId).isSome = true ∧
      group.isSome = true := by
  unfold MemStorage.enrichGroup at h
  rcases hs : st.getUser m.senderId with _ | sender <;>
    rcases hg : group with _ | g <;>
    rw [hs] at h <;> subst hg <;> cases h
  exact ⟨rfl, rfl, rfl⟩

/-- C10: a stored direct message between the two queried users is
silently omitted from `getMessagesBetweenUsers` when its sender or its
recipient has no user record, and a stored message of the queried group
is silently omitted from `getGroupMessages` when its sender has no user
record or the group has no record; both messages remain in the log. -/
theorem c10_orphan_references (st : MemStorage) (u1 u2 gid : String)
    (m1 m2 : Message)
    (hm1 : m1 ∈ st.messages)
    (hp1 : MemStorage.betweenPred u1 u2 m1 = true)
    (hmiss1 : st.getUser m1.senderId = none ∨
      Option.bind m1.recipientId st.getUser = none)
    (hm2 : m2 ∈ st.messages)
    (hg2 : m2.groupId = some gid)
    (hmiss2 : st.getUser m2.senderId = none ∨
      st.getGroupWithMembers gid = none) :
    (∀ e ∈ st.getMessagesBetweenUsers u1 u2, e.msg ≠ m1) ∧
    (∀ e ∈ st.getGroupMessages gid, e.msg ≠ m2) ∧
    m1 ∈ st.messages ∧ m2 ∈ st.messages := by
  refine ⟨?_, ?_, hm1, hm2⟩
  · intro e he hem
    obtain ⟨a, _, hfa⟩ := List.mem_filterMap.mp he
    obtain ⟨hma, hsa, hra⟩ := enrichDirect_eq_some hfa
    rw [hem] at hma
    subst hma
    rcases hmiss1 with h | h
    · rw [h] at hsa
      cases hsa
    · rw [h] at hra
      cases hra
  · intro e he hem
    obtain ⟨a, _, hfa⟩ := List.mem_filterMap.mp he
    obtain ⟨hma, hsa, hga⟩ := enrichGroup_eq_some hfa
    rw [hem] at hma
    subst hma
    rcases hmiss2 with h | h
    · rw [h] at hsa
      cases hsa
    · rw [h] at hga
      cases hga

def c10State : MemStorage :=
  { users := [],
    messages := [⟨"m1", "ghost-a", some "ghost-b", none, "boo", 1⟩,
                 ⟨"m2", "ghost-a", none, some "ghost-g", "ooo", 2⟩],
    groups := [], groupMembers := [] }

/-- C10 witness. -/
theorem c10_orphan_references_witness :
    ((⟨"m1", "ghost-a", some "ghost-b", none, "boo", 1⟩ : Message) ∈
        c10State.messages ∧
     MemStorage.betweenPred "ghost-a" "ghost-b"
        ⟨"m1", "ghost-a", some "ghost-b", none, "boo", 1⟩ = true ∧
     c10State.getUser "ghost-a" = none ∧
     (⟨"m2", "ghost-a", none, some "ghost-g", "ooo", 2⟩ : Message) ∈
        c10State.messages ∧
     c10State.getGroupWithMembers "ghost-g" = none) ∧
    ((∀ e ∈ c10State.getMessagesBetweenUsers "ghost-a" "ghost-b",
        e.msg ≠ ⟨"m1", "ghost-a", some "ghost-b", none, "boo", 1⟩) ∧
     (∀ e ∈ c10State.getGroupMessages "ghost-g",
        e.msg ≠ ⟨"m2", "ghost-a", none, some "ghost-g", "ooo", 2⟩) ∧
     (⟨"m1", "ghost-a", some "ghost-b", none, "boo", 1⟩ : Message) ∈
        c10State.messages ∧
     (⟨"m2", "ghost-a", none, some "ghost-g", "ooo", 2⟩ : Message) ∈
        c10State.messages) :=
  ⟨⟨by decide, by decide, by decide, by decide, by decide⟩,
   c10_orphan_references c10State "ghost-a" "ghost-b" "ghost-g"
     ⟨"m1", "ghost-a", some "ghost-b", none, "boo", 1⟩
     ⟨"m2", "ghost-a", none, some "ghost-g", "ooo", 2⟩
     (by decide) (by decide) (Or.inl (by decide)) (by decide) (by decide)
     (Or.inr (by decide))⟩

end Chat

namespace Chat

mutual

/-- Deep search for an object key anywhere in a JSON value. -/
def hasKeyDeep (k : String) : Json → Bool
  | Json.str _ => false
  | Json.num _ => false
  | Json.null => false
  | Json.arr js => hasKeyDeepList k js
  | Json.obj fs => hasKeyDeepFields k fs

/-- Deep key search in a list of JSON values. -/
def hasKeyDeepList (k : String) : List Json → Bool
  | [] => false
  | j :: js => hasKeyDeep k j || hasKeyDeepList k js

/-- Deep key search in the fields of a JSON object. -/
def hasKeyDeepFields (k : String) : List (String × Json) → Bool
  | [] => false
  | f :: fs => f.1 == k || hasKeyDeep k f.2 || hasKeyDeepFields k fs

end

lemma hasKeyDeep_sanitizeUser (u : User) :
    hasKeyDeep "passwordHash" (sanitizeUser u) = false := by
  simp [sanitizeUser, User.jsonFields, hasKeyDeep, hasKeyDeepFields]

lemma hasKeyDeepList_sanitized (l : List User) :
    hasKeyDeepList "passwordHash" (l.map sanitizeUser) = false := by
  induction l with
  | nil => rfl
  | cons u t ih => simp [hasKeyDeepList, hasKeyDeep_sanitizeUser u, ih]

lemma hasKeyDeep_sanitizedGroup (g : GroupWithMembers) :
    hasKeyDeep "passwordHash" (sanitizedGroupJson g) = false := by
  simp [sanitizedGroupJson, hasKeyDeep, hasKeyDeepFields,
    hasKeyDeepList_sanitized g.members]

lemma hasKeyDeepFields_msg (m : Message) :
    hasKeyDeepFields "passwordHash" m.jsonFields = false := by
  rcases hr : m.recipientId with _ | r <;> rcases hg : m.groupId with _ | g <;>
    simp [Message.jsonFields, hasKeyDeepFields, hasKeyDeep, jsonOfOptStr, hr, hg]

lemma hasKeyDeepFields_append (k : String) (fs gs : List (String × Json)) :
    hasKeyDeepFields k (fs ++ gs) =
      (hasKeyDeepFields k fs || hasKeyDeepFields k gs) := by
  induction fs with
  | nil => simp [hasKeyDeepFields]
  | cons f t ih => simp [hasKeyDeepFields, ih, Bool.or_assoc]

/-- Success shape of the message route: on an ok response the connection
list got the broadcast and the payload is the message fields followed by
the sanitized sender and an optional sanitized recipient or group. -/
lemma postMessages_ok_shape (st : MemStorage) (sessionUserId : String)
    (body : InsertMessage) (freshId : String) (now : Nat)
    (clients : List Connection) (payload : Json)
    (hok : (postMessages st sessionUserId body freshId now clients).1 =
      ApiResult.ok payload) :
    (postMessages st sessionUserId body freshId now clients).2.2 =
      broadcast clients payload ∧
    ∃ (m : Message) (sender : User) (tail : List (String × Json)),
      payload = Json.obj (m.jsonFields ++ (("sender", sanitizeUser sender) :: tail)) ∧
      (tail = [] ∨ (∃ recipient, tail = [("recipient", sanitizeUser recipient)]) ∨
       (∃ g, tail = [("group", sanitizedGroupJson g)])) := by
  by_cases hv : validateInsertMessage body = true
  case neg =>
    have hpost : postMessages st sessionUserId body freshId now clients =
        (ApiResult.err 400 "Message must have either recipientId or groupId, not both",
         st, clients) := by
      simp [postMessages, hv]
    rw [hpost] at hok
    simp at hok
  case pos =>
    rcases hs : (st.createMessage sessionUserId body freshId now).2.getUser
        (st.createMessage sessionUserId body freshId now).1.senderId with _ | sender
    · have hpost : (postMessages st sessionUserId body freshId now clients).1 =
          ApiResult.err 500 "Failed to get sender data" := by
        simp [postMessages, hv, hs]
      rw [hpost] at hok
      simp at hok
    · rcases hr : jsOrNull (st.createMessage sessionUserId body freshId now).1.recipientId
          with _ | rid
      · rcases hg : jsOrNull (st.createMessage sessionUserId body freshId now).1.groupId
            with _ | gid
        · have hpost : postMessages st sessionUserId body freshId now clients =
              (ApiResult.ok (Json.obj
                ((st.createMessage sessionUserId body freshId now).1.jsonFields ++
                  [("sender", sanitizeUser sender)])),
               (st.createMessage sessionUserId body freshId now).2,
               broadcast clients (Json.obj
                ((st.createMessage sessionUserId body freshId now).1.jsonFields ++
                  [("sender", sanitizeUser sender)]))) := by
            simp [postMessages, hv, hs, hr, hg]
          rw [hpost] at hok
          rw [hpost]
          injection hok with hok
          subst hok
          exact ⟨rfl, _, sender, [], rfl, Or.inl rfl⟩
        · rcases hgw : (st.createMessage sessionUserId body freshId now).2.getGroupWithMembers gid
              with _ | g
          · have hpost : (postMessages st sessionUserId body freshId now clients).1 =
                ApiResult.err 500 "Failed to get group data" := by
              simp [postMessages, hv, hs, hr, hg, hgw]
            rw [hpost] at hok
            simp at hok
          · have hpost : postMessages st sessionUserId body freshId now clients =
                (ApiResult.ok (Json.obj
                  ((st.createMessage sessionUserId body freshId now).1.jsonFields ++
                    [("sender", sanitizeUser sender), ("group", sanitizedGroupJson g)])),
                 (st.createMessage sessionUserId body freshId now).2,
                 broadcast clients (Json.obj
                  ((st.createMessage sessionUserId body freshId now).1.jsonFields ++
                    [("sender", sanitizeUser sender), ("group", sanitizedGroupJson g)]))) := by
              simp [postMessages, hv, hs, hr, hg, hgw]
            rw [hpost] at hok
            rw [hpost]
            injection hok with hok
            subst hok
            exact ⟨rfl, _, sender, _, rfl, Or.inr (Or.inr ⟨g, rfl⟩)⟩
      · rcases hru : (st.createMessage sessionUserId body freshId now).2.getUser rid
            with _ | recipient
        · have hpost : (postMessages st sessionUserId body freshId now clients).1 =
              ApiResult.err 500 "Failed to get recipient data" := by
            simp [postMessages, hv, hs, hr, hru]
          rw [hpost] at hok
          simp at hok
        · have hpost : postMessages st sessionUserId body freshId now clients =
              (ApiResult.ok (Json.obj
                ((st.createMessage sessionUserId body freshId now).1.jsonFields ++
                  [("sender", sanitizeUser sender), ("recipient", sanitizeUser recipient)])),
               (st.createMessage sessionUserId body freshId now).2,
               broadcast clients (Json.obj
                ((st.createMessage sessionUserId body freshId now).1.jsonFields ++
                  [("sender", sanitizeUser sender), ("recipient", sanitizeUser recipient)]))) := by
            simp [postMessages, hv, hs, hr, hru]
          rw [hpost] at hok
          rw [hpost]
          injection hok with hok
          subst hok
          exact ⟨rfl, _, sender, _, rfl, Or.inr (Or.inl ⟨recipient, rfl⟩)⟩

/-- C9: any payload the message route answers or broadcasts contains no
`passwordHash` key anywhere: not in the embedded sender, nor in the
embedded recipient, nor in any member of the embedded group. -/
theorem c9_no_password_hash (st : MemStorage) (sessionUserId : String)
    (body : InsertMessage) (freshId : String) (now : Nat)
    (clients : List Connection) (payload : Json)
    (hok : (postMessages st sessionUserId body freshId now clients).1 =
      ApiResult.ok payload) :
    hasKeyDeep "passwordHash" payload = false := by
  obtain ⟨-, m, sender, tail, hpay, htail⟩ :=
    postMessages_ok_shape st sessionUserId body freshId now clients payload hok
  subst hpay
  rw [hasKeyDeep, hasKeyDeepFields_append, hasKeyDeepFields_msg,
    Bool.false_or]
  rcases htail with h | ⟨recipient, h⟩ | ⟨g, h⟩ <;> subst h <;>
    simp [hasKeyDeepFields, hasKeyDeep_sanitizeUser,
      hasKeyDeep_sanitizedGroup]

end Chat

namespace Chat

/-- C3: when a message is created successfully, every connection whose
readyState is OPEN at that moment receives exactly the enriched payload
(no membership filtering of any kind), and a connection in any other
state (connecting, closing, closed) receives nothing. -/
theorem c3_unconditional_broadcast (st : MemStorage) (sessionUserId : String)
    (body : InsertMessage) (freshId : String) (now : Nat)
    (clients : List Connection) (payload : Json)
    (hok : (postMessages st sessionUserId body freshId now clients).1 =
      ApiResult.ok payload) :
    ((postMessages st sessionUserId body freshId now clients).2.2).length =
      clients.length ∧
    ∀ (i : Nat) (h1 : i < clients.length)
      (h2 : i < ((postMessages st sessionUserId body freshId now clients).2.2).length),
      ((postMessages st sessionUserId body freshId now clients).2.2).get ⟨i, h2⟩ =
        (if (clients.get ⟨i, h1⟩).readyState = wsOPEN then
          { clients.get ⟨i, h1⟩ with
            inbox := (clients.get ⟨i, h1⟩).inbox ++ [payload] }
         else clients.get ⟨i, h1⟩) := by
  have hb := (postMessages_ok_shape st sessionUserId body freshId now clients
    payload hok).1
  rw [hb]
  refine ⟨by simp [broadcast], ?_⟩
  intro i h1 h2
  simp only [broadcast, List.get_eq_getElem, List.getElem_map]
  by_cases hrs : clients[i].readyState = wsOPEN <;> simp [hrs]

def c3State : MemStorage :=
  { users := [⟨"ua", "Ann", "ha"⟩, ⟨"ub", "Ben", "hb"⟩],
    messages := [], groups := [], groupMembers := [] }

def c3Payload : Json :=
  Json.obj ((⟨"m1", "ua", some "ub", none, "yo", 4⟩ : Message).jsonFields ++
    [("sender", sanitizeUser ⟨"ua", "Ann", "ha"⟩),
     ("recipient", sanitizeUser ⟨"ub", "Ben", "hb"⟩)])

def c3Clients : List Connection :=
  [⟨1, []⟩, ⟨3, []⟩]

/-- C3 witness: two connections, one open and one closed. -/
theorem c3_unconditional_broadcast_witness :
    ((postMessages c3State "ua" ⟨some "ub", none, "yo"⟩ "m1" 4 c3Clients).1 =
      ApiResult.ok c3Payload) ∧
    (((postMessages c3State "ua" ⟨some "ub", none, "yo"⟩ "m1" 4 c3Clients).2.2).length =
      c3Clients.length ∧
     ∀ (i : Nat) (h1 : i < c3Clients.length)
       (h2 : i < ((postMessages c3State "ua" ⟨some "ub", none, "yo"⟩ "m1" 4 c3Clients).2.2).length),
       ((postMessages c3State "ua" ⟨some "ub", none, "yo"⟩ "m1" 4 c3Clients).2.2).get ⟨i, h2⟩ =
         (if (c3Clients.get ⟨i, h1⟩).readyState = wsOPEN then
           { c3Clients.get ⟨i, h1⟩ with
             inbox := (c3Clients.get ⟨i, h1⟩).inbox ++ [c3Payload] }
          else c3Clients.get ⟨i, h1⟩)) :=
  ⟨rfl, c3_unconditional_broadcast c3State "ua" ⟨some "ub", none, "yo"⟩ "m1" 4
    c3Clients c3Payload rfl⟩

def c9State : MemStorage :=
  { users := [⟨"uc", "Cam", "hc"⟩, ⟨"ud", "Dee", "hd"⟩],
    groups := [⟨"g9", "club", "uc", 1⟩],
    groupMembers := [("g9", ["uc", "ud"])],
    messages := [] }

def c9Payload : Json :=
  Json.obj ((⟨"m9", "uc", none, some "g9", "hi all", 6⟩ : Message).jsonFields ++
    [("sender", sanitizeUser ⟨"uc", "Cam", "hc"⟩),
     ("group", sanitizedGroupJson
       ⟨"g9", "club", "uc", 1, [⟨"uc", "Cam", "hc"⟩, ⟨"ud", "Dee", "hd"⟩], 2⟩)])

/-- C9 witness: a successful group message whose payload embeds the
sender and the full member list. -/
theorem c9_no_password_hash_witness :
    ((postMessages c9State "uc" ⟨none, some "g9", "hi all"⟩ "m9" 6 []).1 =
      ApiResult.ok c9Payload) ∧
    hasKeyDeep "passwordHash" c9Payload = false :=
  ⟨rfl, c9_no_password_hash c9State "uc" ⟨none, some "g9", "hi all"⟩ "m9" 6 []
    c9Payload rfl⟩

end Chat

namespace Chat

lemma betweenPred_comm (u1 u2 : String) (m : Message) :
    MemStorage.betweenPred u1 u2 m = MemStorage.betweenPred u2 u1 m := by
  unfold MemStorage.betweenPred
  exact Bool.or_comm _ _

lemma msgAsc_trans : ∀ (a b c : Message),
    msgAsc a b → msgAsc b c → msgAsc a c := by
  intro a b c hab hbc
  simp only [msgAsc, decide_eq_true_eq] at hab hbc ⊢
  omega

lemma msgAsc_total : ∀ (a b : Message), msgAsc a b || msgAsc b a := by
  intro a b
  simp only [msgAsc, Bool.or_eq_true, decide_eq_true_eq]
  omega

lemma map_msg_enrichDirect (st : MemStorage) (l : List Message) :
    (l.filterMap st.enrichDirect).map (fun e => e.msg) =
      l.filter (fun m => (st.getUser m.senderId).isSome &&
        (Option.bind m.recipientId st.getUser).isSome) := by
  induction l with
  | nil => rfl
  | cons a t ih =>
    rcases hs : st.getUser a.senderId with _ | sender <;>
      rcases hr : Option.bind a.recipientId st.getUser with _ | recipient <;>
      simp [MemStorage.enrichDirect, List.filterMap_cons, hs, hr, ih,
        List.filter_cons]

/-- C5: `getMessagesBetweenUsers` is symmetric in its two arguments; a
valid direct message between the pair (both endpoints resolving) appears
in the result; the result is ascending in creation time; and any two
matching, resolvable log entries with nondecreasing timestamps appear in
the result in their log (insertion) order, which also settles ties. -/
theorem c5_messages_between (st : MemStorage) (s r : String) (m : Message)
    (hm : m ∈ st.messages) (hs : m.senderId = s) (hr : m.recipientId = some r)
    (hsu : (st.getUser s).isSome = true) (hru : (st.getUser r).isSome = true) :
    st.getMessagesBetweenUsers s r = st.getMessagesBetweenUsers r s ∧
    (∃ e ∈ st.getMessagesBetweenUsers s r, e.msg = m) ∧
    (st.getMessagesBetweenUsers s r).Pairwise
      (fun a b => a.msg.createdAt ≤ b.msg.createdAt) ∧
    (∀ m1 m2 : Message, List.Sublist [m1, m2] st.messages →
      MemStorage.betweenPred s r m1 = true →
      MemStorage.betweenPred s r m2 = true →
      (st.getUser m1.senderId).isSome = true →
      (Option.bind m1.recipientId st.getUser).isSome = true →
      (st.getUser m2.senderId).isSome = true →
      (Option.bind m2.recipientId st.getUser).isSome = true →
      m1.createdAt ≤ m2.createdAt →
      List.Sublist [m1, m2] ((st.getMessagesBetweenUsers s r).map (fun e => e.msg))) := by
  refine ⟨?_, ?_, ?_, ?_⟩
  · unfold MemStorage.getMessagesBetweenUsers
    rw [List.filter_congr (fun m _ => betweenPred_comm s r m)]
  · have hpred : MemStorage.betweenPred s r m = true := by
      simp [MemStorage.betweenPred, hs, hr]
    have hms : m ∈ (st.messages.filter (MemStorage.betweenPred s r)).mergeSort msgAsc :=
      List.mem_mergeSort.mpr (List.mem_filter.mpr ⟨hm, hpred⟩)
    have hsu2 : (st.getUser m.senderId).isSome = true := by rw [hs]; exact hsu
    have hru2 : (Option.bind m.recipientId st.getUser).isSome = true := by
      rw [hr]; exact hru
    obtain ⟨e, hee, hem⟩ := enrichDirect_some hsu2 hru2
    exact ⟨e, List.mem_filterMap.mpr ⟨m, hms, hee⟩, hem⟩
  · have hsorted : ((st.messages.filter (MemStorage.betweenPred s r)).mergeSort
        msgAsc).Pairwise (fun a b => msgAsc a b) :=
      List.sorted_mergeSort msgAsc_trans msgAsc_total _
    refine List.Pairwise.filterMap st.enrichDirect ?_ hsorted
    intro a b hab x hx y hy
    obtain ⟨hxa, -, -⟩ := enrichDirect_eq_some hx
    obtain ⟨hyb, -, -⟩ := enrichDirect_eq_some hy
    rw [hxa, hyb]
    simpa [msgAsc] using hab
  · intro m1 m2 hsub hp1 hp2 hs1 hr1 hs2 hr2 hle
    have hfsub : List.Sublist [m1, m2]
        (st.messages.filter (MemStorage.betweenPred s r)) := by
      have h := hsub.filter (MemStorage.betweenPred s r)
      simpa [List.filter_cons, hp1, hp2] using h
    have hpair : List.Sublist [m1, m2]
        ((st.messages.filter (MemStorage.betweenPred s r)).mergeSort msgAsc) :=
      List.pair_sublist_mergeSort msgAsc_trans msgAsc_total
        (by simp [msgAsc, hle]) hfsub
    have hq := hpair.filter (fun m => (st.getUser m.senderId).isSome &&
      (Option.bind m.recipientId st.getUser).isSome)
    rw [show ([m1, m2].filter (fun m => (st.getUser m.senderId).isSome &&
        (Option.bind m.recipientId st.getUser).isSome)) = [m1, m2] by
      simp [List.filter_cons, hs1, hr1, hs2, hr2]] at hq
    unfold MemStorage.getMessagesBetweenUsers
    rw [map_msg_enrichDirect]
    exact hq

def c5State : MemStorage :=
  { users := [⟨"us", "Sam", "hs"⟩, ⟨"ur", "Rae", "hr"⟩],
    messages := [⟨"m1", "us", some "ur", none, "one", 2⟩,
                 ⟨"m2", "ur", some "us", none, "two", 2⟩],
    groups := [], groupMembers := [] }

/-- C5 witness. -/
theorem c5_messages_between_witness :
    ((⟨"m1", "us", some "ur", none, "one", 2⟩ : Message) ∈ c5State.messages ∧
     (⟨"m1", "us", some "ur", none, "one", 2⟩ : Message).senderId = "us" ∧
     (⟨"m1", "us", some "ur", none, "one", 2⟩ : Message).recipientId = some "ur" ∧
     (c5State.getUser "us").isSome = true ∧
     (c5State.getUser "ur").isSome = true) ∧
    (c5State.getMessagesBetweenUsers "us" "ur" =
       c5State.getMessagesBetweenUsers "ur" "us" ∧
     (∃ e ∈ c5State.getMessagesBetweenUsers "us" "ur",
       e.msg = ⟨"m1", "us", some "ur", none, "one", 2⟩) ∧
     (c5State.getMessagesBetweenUsers "us" "ur").Pairwise
       (fun a b => a.msg.createdAt ≤ b.msg.createdAt) ∧
     (∀ m1 m2 : Message, List.Sublist [m1, m2] c5State.messages →
       MemStorage.betweenPred "us" "ur" m1 = true →
       MemStorage.betweenPred "us" "ur" m2 = true →
       (c5State.getUser m1.senderId).isSome = true →
       (Option.bind m1.recipientId c5State.getUser).isSome = true →
       (c5State.getUser m2.senderId).isSome = true →
       (Option.bind m2.recipientId c5State.getUser).isSome = true →
       m1.createdAt ≤ m2.createdAt →
       List.Sublist [m1, m2] ((c5State.getMessagesBetweenUsers "us" "ur").map
         (fun e => e.msg)))) :=
  ⟨⟨by decide, by decide, by decide, by decide, by decide⟩,
   c5_messages_between c5State "us" "ur" ⟨"m1", "us", some "ur", none, "one", 2⟩
     (by decide) (by decide) (by decide) (by decide) (by decide)⟩

end Chat

namespace Chat

/-- A conversation is the direct conversation with counterpart id `v`. -/
def isDirectWith (v : String) (c : Conversation) : Bool :=
  decide (c.type = ConvType.direct) &&
    decide (c.otherUser.map (fun u => u.id) = some v)

/-- A conversation is the group conversation of group id `g`. -/
def isGroupConv (g : String) (c : Conversation) : Bool :=
  decide (c.type = ConvType.group) &&
    decide (c.group.map (fun x => x.id) = some g)

/-- The user currently belongs to the group: some membership entry with
that key contains the user. -/
def belongsTo (st : MemStorage) (u g : String) : Bool :=
  st.groupMembers.any (fun e => e.1 == g && e.2.contains u)

lemma getUser_some_id {st : MemStorage} {v : String} {x : User}
    (h : st.getUser v = some x) : x.id = v := by
  unfold MemStorage.getUser at h
  have := List.find?_some h
  simpa using this

lemma getGroupWithMembers_some_id {st : MemStorage} {gid : String}
    {gwm : GroupWithMembers} (h : st.getGroupWithMembers gid = some gwm) :
    gwm.id = gid := by
  unfold MemStorage.getGroupWithMembers at h
  rcases hg : st.getGroup gid with _ | g0
  · rw [hg] at h
    cases h
  · rw [hg] at h
    cases h
    unfold MemStorage.getGroup at hg
    have := List.find?_some hg
    simpa using this

lemma setAdd_nodup (l : List String) (x : String) (h : l.Nodup) :
    (setAdd l x).Nodup := by
  by_cases hmem : x ∈ l
  · simpa [setAdd, hmem] using h
  · rw [setAdd, if_neg hmem, List.nodup_append]
    refine ⟨h, List.nodup_singleton _, ?_⟩
    intro a ha hb
    simp only [List.mem_singleton] at hb
    exact hmem (hb ▸ ha)

lemma counterpartStep_nodup (u : String) (acc : List String) (m : Message)
    (h : acc.Nodup) : (MemStorage.counterpartStep u acc m).Nodup := by
  unfold MemStorage.counterpartStep
  split
  · exact h
  · split
    · exact setAdd_nodup _ _ h
    · split
      · exact setAdd_nodup _ _ h
      · exact h

lemma directCounterparts_nodup (st : MemStorage) (u : String) :
    (st.directCounterparts u).Nodup := by
  unfold MemStorage.directCounterparts
  generalize st.messages = msgs
  have h : (List.nil (α := String)).Nodup := List.nodup_nil
  generalize (List.nil (α := String)) = acc at h
  induction msgs generalizing acc with
  | nil => exact h
  | cons m t ih => exact ih _ (counterpartStep_nodup u acc m h)

lemma convDesc_trans : ∀ (a b c : Conversation),
    MemStorage.convDesc a b → MemStorage.convDesc b c → MemStorage.convDesc a c := by
  intro a b c hab hbc
  simp only [MemStorage.convDesc, decide_eq_true_eq] at hab hbc ⊢
  omega

lemma convDesc_total : ∀ (a b : Conversation),
    MemStorage.convDesc a b || MemStorage.convDesc b a := by
  intro a b
  simp only [MemStorage.convDesc, Bool.or_eq_true, decide_eq_true_eq]
  omega

lemma countP_isDirectWith (st : MemStorage) (u v : String)
    (cps : List String) (hnd : cps.Nodup)
    (hres : ∀ w ∈ cps, (st.getUser w).isSome = true) :
    (cps.filterMap (fun w => (st.getUser w).map
      (fun x => st.directConversation u w x))).countP (isDirectWith v) =
    if v ∈ cps then 1 else 0 := by
  induction cps with
  | nil => simp
  | cons w t ih =>
    obtain ⟨uw, huw⟩ := Option.isSome_iff_exists.mp
      (hres w (List.mem_cons_self w t))
    have hid : uw.id = w := getUser_some_id huw
    have hih := ih (List.Nodup.of_cons hnd)
      (fun w2 hw2 => hres w2 (List.mem_cons_of_mem w hw2))
    rw [List.filterMap_cons, huw, Option.map_some']
    show List.countP (isDirectWith v)
        (st.directConversation u w uw ::
          t.filterMap (fun w => (st.getUser w).map
            (fun x => st.directConversation u w x))) =
      if v ∈ w :: t then 1 else 0
    have hp : isDirectWith v (st.directConversation u w uw) = decide (w = v) := by
      simp [isDirectWith, MemStorage.directConversation, hid]
    by_cases hwv : w = v
    · subst hwv
      have hpt : isDirectWith w (st.directConversation u w uw) = true := by
        rw [hp]
        simp
      rw [List.countP_cons_of_pos _ _ hpt, hih,
        if_neg (List.Nodup.not_mem hnd), if_pos (List.mem_cons_self w t)]
    · have hpn : ¬ isDirectWith v (st.directConversation u w uw) = true := by
        rw [hp]
        simp [hwv]
      rw [List.countP_cons_of_neg _ _ hpn, hih]
      by_cases hvt : v ∈ t
      · rw [if_pos hvt, if_pos (List.mem_cons_of_mem w hvt)]
      · rw [if_neg hvt, if_neg (by
          simp only [List.mem_cons]
          rintro (h | h)
          · exact hwv h.symm
          · exact hvt h)]

end Chat

namespace Chat

lemma countP_groupFilterMap (st : MemStorage) (u g : String)
    (l : List (String × List String))
    (H2l : ∀ e ∈ l, u ∈ e.2 → (st.getGroupWithMembers e.1).isSome = true)
    (H3l : (l.map (fun e => e.1)).Nodup) :
    (l.filterMap (fun e =>
      if u ∈ e.2 then st.getGroupWithMembers e.1 else none)).countP
        (fun gwm => decide (gwm.id = g)) =
    if l.any (fun e => e.1 == g && e.2.contains u) then 1 else 0 := by
  induction l with
  | nil => simp
  | cons e t ih =>
    have hmapcons : (List.map (fun e => e.1) (e :: t)) =
        e.1 :: t.map (fun e => e.1) := rfl
    rw [hmapcons] at H3l
    obtain ⟨hkey, htail⟩ := List.nodup_cons.mp H3l
    have hih := ih (fun e2 he2 => H2l e2 (List.mem_cons_of_mem e he2)) htail
    by_cases hu : u ∈ e.2
    · obtain ⟨gwm, hg⟩ := Option.isSome_iff_exists.mp
        (H2l e (List.mem_cons_self e t) hu)
      have hid : gwm.id = e.1 := getGroupWithMembers_some_id hg
      rw [List.filterMap_cons, if_pos hu, hg]
      show (gwm :: t.filterMap (fun e =>
          if u ∈ e.2 then st.getGroupWithMembers e.1 else none)).countP
          (fun gwm => decide (gwm.id = g)) = _
      have hcu : e.2.contains u = true := by
        simpa [List.contains] using List.elem_iff.mpr hu
      by_cases heg : e.1 = g
      · have hpt : decide (gwm.id = g) = true := by simp [hid, heg]
        have hanyf : t.any (fun e2 => e2.1 == g && e2.2.contains u) = false := by
          rw [List.any_eq_false]
          intro e2 he2
          simp only [Bool.and_eq_true, beq_iff_eq, not_and]
          intro hk _
          exact absurd (List.mem_map.mpr ⟨e2, he2,
            show e2.1 = e.1 by rw [hk, heg]⟩) hkey
        rw [List.countP_cons_of_pos (fun x : GroupWithMembers => decide (x.id = g)) _ hpt, hih,
          hanyf]
        simp [List.any_cons, heg, hcu, hu]
      · have hpf : ¬ decide (gwm.id = g) = true := by simp [hid, heg]
        rw [List.countP_cons_of_neg (fun x : GroupWithMembers => decide (x.id = g)) _ hpf, hih]
        have hb : (e.1 == g) = false := by simp [heg]
        rw [List.any_cons, hb, Bool.false_and, Bool.false_or]
    · have hcf : e.2.contains u = false := by
        rcases hc : e.2.contains u with _ | _
        · rfl
        · exact absurd (List.elem_iff.mp (by simpa [List.contains] using hc)) hu
      rw [List.filterMap_cons, if_neg hu, hih, List.any_cons, hcf,
        Bool.and_false, Bool.false_or]

/-- C4: under referential integrity (every direct counterpart resolves to
a user, every membership entry of the user resolves to a group, and the
membership map has no duplicate keys), the conversation list is sorted
descending by last-message time (null counted as zero), contains exactly
one direct conversation per distinct counterpart of the user's direct
messages, and exactly one group conversation per group the user
currently belongs to. -/
theorem c4_conversation_list (st : MemStorage) (u : String)
    (H1 : ∀ v ∈ st.directCounterparts u, (st.getUser v).isSome = true)
    (H2 : ∀ e ∈ st.groupMembers, u ∈ e.2 →
      (st.getGroupWithMembers e.1).isSome = true)
    (H3 : (st.groupMembers.map (fun e => e.1)).Nodup) :
    (st.getConversationsForUser u).Pairwise
      (fun a b => MemStorage.convKey b ≤ MemStorage.convKey a) ∧
    (∀ v, (st.getConversationsForUser u).countP (isDirectWith v) =
      if v ∈ st.directCounterparts u then 1 else 0) ∧
    (∀ g, (st.getConversationsForUser u).countP (isGroupConv g) =
      if belongsTo st u g = true then 1 else 0) := by
  have hperm : ∀ p : Conversation → Bool,
      (st.getConversationsForUser u).countP p =
      ((st.directCounterparts u).filterMap (fun v => (st.getUser v).map
        (fun x => st.directConversation u v x))).countP p +
      ((st.getGroupsForUser u).map st.groupConversation).countP p := by
    intro p
    unfold MemStorage.getConversationsForUser
    rw [List.Perm.countP_eq p (List.mergeSort_perm _ _)]
    exact List.countP_append _ _ _
  refine ⟨?_, ?_, ?_⟩
  · unfold MemStorage.getConversationsForUser
    refine (List.sorted_mergeSort convDesc_trans convDesc_total _).imp ?_
    intro a b hab
    simpa [MemStorage.convDesc] using hab
  · intro v
    rw [hperm, countP_isDirectWith st u v (st.directCounterparts u)
      (directCounterparts_nodup st u) H1]
    have hgz : ((st.getGroupsForUser u).map st.groupConversation).countP
        (isDirectWith v) = 0 := by
      rw [List.countP_eq_zero]
      intro c hc
      obtain ⟨gwm, -, hcg⟩ := List.mem_map.mp hc
      rw [← hcg]
      simp [isDirectWith, MemStorage.groupConversation]
    rw [hgz, Nat.add_zero]
  · intro g
    rw [hperm]
    have hdz : ((st.directCounterparts u).filterMap (fun v => (st.getUser v).map
        (fun x => st.directConversation u v x))).countP (isGroupConv g) = 0 := by
      rw [List.countP_eq_zero]
      intro c hc
      obtain ⟨w, -, hw⟩ := List.mem_filterMap.mp hc
      rcases hu : st.getUser w with _ | uw
      · rw [hu] at hw
        cases hw
      · rw [hu, Option.map_some'] at hw
        cases hw
        simp [isGroupConv, MemStorage.directConversation]
    rw [hdz, Nat.zero_add, List.countP_map]
    have hcong : ((st.getGroupsForUser u).countP
        (fun gwm => isGroupConv g (st.groupConversation gwm))) =
        ((st.getGroupsForUser u).countP (fun gwm => decide (gwm.id = g))) := by
      apply List.countP_congr
      intro gwm _
      simp [isGroupConv, MemStorage.groupConversation]
    rw [show (isGroupConv g ∘ st.groupConversation) =
      (fun gwm => isGroupConv g (st.groupConversation gwm)) from rfl]
    rw [hcong]
    unfold MemStorage.getGroupsForUser
    rw [countP_groupFilterMap st u g st.groupMembers H2 H3]
    rfl

end Chat

namespace Chat

def c4State : MemStorage :=
  { users := [⟨"ua", "Ann", "h1"⟩, ⟨"ub", "Ben", "h2"⟩],
    messages := [⟨"m1", "ua", some "ub", none, "hi", 10⟩,
                 ⟨"m2", "ua", none, some "G1", "grp", 5⟩],
    groups := [⟨"G1", "club", "ua", 1⟩],
    groupMembers := [("G1", ["ua", "ub"])] }

/-- C4 witness. -/
theorem c4_conversation_list_witness :
    ((∀ v ∈ c4State.directCounterparts "ua", (c4State.getUser v).isSome = true) ∧
     (∀ e ∈ c4State.groupMembers, "ua" ∈ e.2 →
       (c4State.getGroupWithMembers e.1).isSome = true) ∧
     (c4State.groupMembers.map (fun e => e.1)).Nodup) ∧
    ((c4State.getConversationsForUser "ua").Pairwise
       (fun a b => MemStorage.convKey b ≤ MemStorage.convKey a) ∧
     (∀ v, (c4State.getConversationsForUser "ua").countP (isDirectWith v) =
       if v ∈ c4State.directCounterparts "ua" then 1 else 0) ∧
     (∀ g, (c4State.getConversationsForUser "ua").countP (isGroupConv g) =
       if belongsTo c4State "ua" g = true then 1 else 0)) :=
  ⟨⟨by decide, by decide, by decide⟩,
   c4_conversation_list c4State "ua" (by decide) (by decide) (by decide)⟩

end Chat
